import Mathlib

/-
Verification of the data-assembly and train/test-splitting pipeline of
Python_Files/hydrolibs/random_forest_regressor.py (HydroSAR).

Modelling conventions, stated once:
* Raster cell values and predictions are rationals (`ℚ`); a NaN cell is `Option`-none
  (for raw grids) or `Val.na` (inside tables).
* A pandas DataFrame is a column-name list plus a row list (`PDF` below); a pandas
  cell is a `Val` (number, string, or missing).
* The fresh `pd.DataFrame()` created before an accumulation loop is *pristine*: it
  has no columns, and selecting any column from it raises `KeyError`.  A pristine
  accumulator is modelled as `Option`-none; the first `append`/`concat` gives it the
  appended object's columns (`some`).
* `sklearn.utils.shuffle(obj, random_state=seed)` permutes rows by a permutation
  that depends only on the seed and the number of rows.  It is modelled by a list
  rotation whose amount is the seed: a genuine permutation determined by
  (seed, length), which is all the source relies on.
* `sklearn.model_selection.train_test_split` with a float `test_size` draws
  `n_test = ceil(test_size * n)` samples for the test side and the remaining
  `n - n_test` for the train side, raising `ValueError` when either side is empty;
  with `shuffle=True` it permutes by a (seed, length)-determined permutation first
  (test = front of the permuted list), with `shuffle=False` the test side is the
  tail.  Passing the features and the target to one call splits both with the same
  indices.
* Python `set(...)` iteration order is unspecified; it is modelled as
  first-occurrence order (`List.dedup` keeps the first copy of each duplicate, so
  `(rows.map attr).dedup` lists the distinct attribute values in first-occurrence
  order).  No claim below depends on that order.
-/

/-- A pandas cell: a numeric value, a string label, or a missing value (NaN/None). -/
inductive Val where
  | num (q : ℚ)
  | str (s : String)
  | na
deriving DecidableEq, Repr

/-- Contents of a possibly-pristine accumulator DataFrame (`none` = pristine). -/
def unO {α : Type} (o : Option (List α)) : List α := o.getD []

/-- `acc.append(chunk)`: the result always has columns, hence `some`. -/
def dfAppend {α : Type} (o : Option (List α)) (l : List α) : Option (List α) :=
  some (unO o ++ l)

/-- Selecting a column (`df[attr]`) from an accumulator: raises `KeyError` when the
DataFrame is still the pristine `pd.DataFrame()` (it has no columns). -/
def reqCol {α : Type} (o : Option (List α)) : Except String (List α) :=
  match o with
  | none => .error "KeyError"
  | some l => .ok l

/-- `sklearn.utils.shuffle(l, random_state=seed)`: a permutation of the rows
determined only by the seed and the row count (modelled as a rotation). -/
def shuffleL {α : Type} (seed : Nat) (l : List α) : List α := l.rotate seed

/-- The partition attribute of `split_data_attribute`: `GW_NAME` when `use_gws`,
else `YEAR` (lines 180-186). -/
def attrOfFn {R : Type} (use_gws : Bool) (yearOf gwOf : R → Val) : R → Val :=
  if use_gws then gwOf else yearOf

/-- One iteration of the selection loop of `split_data_attribute` (lines 187-193):
all rows whose partition attribute equals `v` go wholly to train when
`v ∉ test_vars`, wholly to test otherwise. -/
def attrStep {R : Type} (rows : List R) (attrOf : R → Val) (tvars : List Val)
    (st : Option (List R) × Option (List R)) (v : Val) :
    Option (List R) × Option (List R) :=
  let sel := rows.filter (fun r => attrOf r = v)
  if v ∈ tvars then (st.1, dfAppend st.2 sel) else (dfAppend st.1 sel, st.2)

/-- One iteration of the spatio-temporal carve-out loop (lines 195-198): rows of a
held-out year are moved from the train accumulator to the test accumulator.
`x_train_df['YEAR']` raises `KeyError` when the train accumulator is pristine. -/
def carveStep {R : Type} (yearOf : R → Val)
    (st : Option (List R) × Option (List R)) (y : Val) :
    Except String (Option (List R) × Option (List R)) := do
  let tr ← reqCol st.1
  let xnew := tr.filter (fun r => yearOf r = y)
  pure (some (tr.filter (fun r => ¬ yearOf r = y)), dfAppend st.2 xnew)

/-- Lines 199-212: extract the target column from each accumulator (raising
`KeyError` on a pristine accumulator, train side first), then optionally shuffle
the four tables, each with the same seed. -/
def finishSplit {R : Type} (predOf : R → Val) (shuffle_ : Bool) (seed : Nat)
    (st : Option (List R) × Option (List R)) :
    Except String (List R × List R × List Val × List Val) :=
  match st.1, st.2 with
  | none, _ => .error "KeyError"
  | some _, none => .error "KeyError"
  | some xtr, some xte =>
      if shuffle_ then
        .ok (shuffleL seed xtr, shuffleL seed xte,
             shuffleL seed (xtr.map predOf), shuffleL seed (xte.map predOf))
      else .ok (xtr, xte, xtr.map predOf, xte.map predOf)

/-- Accumulation phase of `split_data_attribute` (lines 176-198): the selection
loop over the distinct partition-attribute values, then, when
`spatio_temporal and use_gws`, the carve-out loop over `test_years`. -/
def splitAccum {R : Type} (rows : List R) (yearOf gwOf : R → Val)
    (test_years test_gws : List Val) (use_gws spatio_temporal : Bool) :
    Except String (Option (List R) × Option (List R)) :=
  let attrOf := attrOfFn use_gws yearOf gwOf
  let tvars := if use_gws then test_gws else test_years
  let selection := (rows.map attrOf).dedup
  let st0 := selection.foldl (attrStep rows attrOf tvars) (none, none)
  if spatio_temporal && use_gws then test_years.foldlM (carveStep yearOf) st0
  else .ok st0

/-- `split_data_attribute` (lines 160-212).  Rows are opaque (`R`); the three
accessors give a row's `YEAR`, `GW_NAME` and prediction-attribute cells.
Returns `(x_train, x_test, y_train, y_test)` or the raised exception. -/
def split_data_attribute (R : Type) (rows : List R) (yearOf gwOf predOf : R → Val)
    (test_years test_gws : List Val) (use_gws shuffle_ : Bool) (seed : Nat)
    (spatio_temporal : Bool) :
    Except String (List R × List R × List Val × List Val) :=
  match splitAccum rows yearOf gwOf test_years test_gws use_gws spatio_temporal with
  | .error e => .error e
  | .ok st1 => finishSplit predOf shuffle_ seed st1

lemma unO_dfAppend {α : Type} (o : Option (List α)) (l : List α) :
    unO (dfAppend o l) = unO o ++ l := rfl

/-- Any row in the train accumulator after the selection loop came from `rows` and
has its partition attribute outside the held-out set (or was there initially). -/
lemma attrStep_fold_train {R : Type} (rows : List R) (attrOf : R → Val)
    (tvars : List Val) (sel : List Val) (st : Option (List R) × Option (List R))
    (r : R) (h : r ∈ unO (sel.foldl (attrStep rows attrOf tvars) st).1) :
    r ∈ unO st.1 ∨ (r ∈ rows ∧ attrOf r ∉ tvars) := by
  induction sel generalizing st with
  | nil => exact Or.inl h
  | cons v vs ih =>
    rcases ih (attrStep rows attrOf tvars st v) h with h1 | h1
    · unfold attrStep at h1
      by_cases hv : v ∈ tvars
      · simp only [hv, if_pos] at h1
        exact Or.inl h1
      · simp only [hv, if_neg, not_false_iff, unO_dfAppend, List.mem_append] at h1
        rcases h1 with h1 | h1
        · exact Or.inl h1
        · have hf := List.mem_filter.mp h1
          right
          refine ⟨hf.1, ?_⟩
          have : attrOf r = v := by simpa using hf.2
          simpa [this] using hv
    · exact Or.inr h1

/-- Any row in the test accumulator after the selection loop came from `rows` and
has its partition attribute inside the held-out set (or was there initially). -/
lemma attrStep_fold_test {R : Type} (rows : List R) (attrOf : R → Val)
    (tvars : List Val) (sel : List Val) (st : Option (List R) × Option (List R))
    (r : R) (h : r ∈ unO (sel.foldl (attrStep rows attrOf tvars) st).2) :
    r ∈ unO st.2 ∨ (r ∈ rows ∧ attrOf r ∈ tvars) := by
  induction sel generalizing st with
  | nil => exact Or.inl h
  | cons v vs ih =>
    rcases ih (attrStep rows attrOf tvars st v) h with h1 | h1
    · unfold attrStep at h1
      by_cases hv : v ∈ tvars
      · simp only [hv, if_pos, unO_dfAppend, List.mem_append] at h1
        rcases h1 with h1 | h1
        · exact Or.inl h1
        · have hf := List.mem_filter.mp h1
          have : attrOf r = v := by simpa using hf.2
          exact Or.inr ⟨hf.1, this ▸ hv⟩
      · simp only [hv, if_neg, not_false_iff] at h1
        exact Or.inl h1
    · exact Or.inr h1

/-- The selection loop never turns a non-pristine accumulator back into a pristine
one, and a held-out selection value makes the test accumulator non-pristine. -/
lemma attrStep_fold_test_some {R : Type} (rows : List R) (attrOf : R → Val)
    (tvars : List Val) (sel : List Val) (st : Option (List R) × Option (List R))
    (h : st.2.isSome = true ∨ ∃ v ∈ sel, v ∈ tvars) :
    (sel.foldl (attrStep rows attrOf tvars) st).2.isSome = true := by
  induction sel generalizing st with
  | nil =>
    rcases h with h | ⟨v, hv, _⟩
    · exact h
    · exact absurd hv (List.not_mem_nil v)
  | cons v vs ih =>
    apply ih
    rcases h with h | ⟨w, hw, hwt⟩
    · left
      unfold attrStep
      by_cases hv : v ∈ tvars <;> simp [hv, dfAppend, h]
    · rcases List.mem_cons.mp hw with rfl | hw2
      · left
        unfold attrStep
        simp [hwt, dfAppend]
      · right
        exact ⟨w, hw2, hwt⟩

/-- Dual of `attrStep_fold_test_some` for the train accumulator. -/
lemma attrStep_fold_train_some {R : Type} (rows : List R) (attrOf : R → Val)
    (tvars : List Val) (sel : List Val) (st : Option (List R) × Option (List R))
    (h : st.1.isSome = true ∨ ∃ v ∈ sel, v ∉ tvars) :
    (sel.foldl (attrStep rows attrOf tvars) st).1.isSome = true := by
  induction sel generalizing st with
  | nil =>
    rcases h with h | ⟨v, hv, _⟩
    · exact h
    · exact absurd hv (List.not_mem_nil v)
  | cons v vs ih =>
    apply ih
    rcases h with h | ⟨w, hw, hwt⟩
    · left
      unfold attrStep
      by_cases hv : v ∈ tvars <;> simp [hv, dfAppend, h]
    · rcases List.mem_cons.mp hw with rfl | hw2
      · left
        unfold attrStep
        simp [hwt, dfAppend]
      · right
        exact ⟨w, hw2, hwt⟩

/-- The carve-out loop succeeds as soon as the train accumulator is non-pristine,
keeps it non-pristine, and keeps the test accumulator non-pristine. -/
lemma carve_fold_ok {R : Type} (yearOf : R → Val) (ys : List Val)
    (st : Option (List R) × Option (List R)) (h : st.1.isSome = true) :
    ∃ st1, ys.foldlM (carveStep yearOf) st = .ok st1 ∧ st1.1.isSome = true ∧
      (st.2.isSome = true → st1.2.isSome = true) := by
  induction ys generalizing st with
  | nil => exact ⟨st, rfl, h, fun h2 => h2⟩
  | cons y ys ih =>
    rcases Option.isSome_iff_exists.mp h with ⟨tr, htr⟩
    have hstep : carveStep yearOf st y =
        .ok (some (tr.filter (fun r => ¬ yearOf r = y)),
             dfAppend st.2 (tr.filter (fun r => yearOf r = y))) := by
      unfold carveStep reqCol
      rw [htr]
      rfl
    rcases ih (some (tr.filter (fun r => ¬ yearOf r = y)),
        dfAppend st.2 (tr.filter (fun r => yearOf r = y))) rfl with ⟨st1, hok, h1, h2⟩
    refine ⟨st1, ?_, h1, fun _ => h2 rfl⟩
    rw [List.foldlM_cons, hstep]
    exact hok

/-- Any row in the train accumulator after the carve-out loop was already in it
and its year is outside the carved set. -/
lemma carve_fold_train_mem {R : Type} (yearOf : R → Val) (ys : List Val)
    (st st1 : Option (List R) × Option (List R))
    (hok : ys.foldlM (carveStep yearOf) st = .ok st1) (r : R)
    (hr : r ∈ unO st1.1) : r ∈ unO st.1 ∧ ∀ y ∈ ys, yearOf r ≠ y := by
  induction ys generalizing st with
  | nil =>
    cases hok
    exact ⟨hr, by simp⟩
  | cons y ys ih =>
    rw [List.foldlM_cons] at hok
    cases hst : st.1 with
    | none =>
      rw [show carveStep yearOf st y = .error "KeyError" by
        unfold carveStep reqCol; rw [hst]; rfl] at hok
      have hbad : (Except.error "KeyError" :
          Except String (Option (List R) × Option (List R))) = .ok st1 := hok
      exact Except.noConfusion hbad
    | some tr =>
      rw [show carveStep yearOf st y =
          .ok (some (tr.filter (fun r => ¬ yearOf r = y)),
               dfAppend st.2 (tr.filter (fun r => yearOf r = y))) by
        unfold carveStep reqCol; rw [hst]; rfl] at hok
      have hok2 : ys.foldlM (carveStep yearOf)
          (some (tr.filter (fun r => ¬ yearOf r = y)),
           dfAppend st.2 (tr.filter (fun r => yearOf r = y))) = .ok st1 := hok
      rcases ih _ hok2 with ⟨hmem, hys⟩
      have hf := List.mem_filter.mp hmem
      have hne : ¬ yearOf r = y := by simpa using hf.2
      refine ⟨hf.1, ?_⟩
      intro y2 hy2
      rcases List.mem_cons.mp hy2 with rfl | hy3
      · exact hne
      · exact hys y2 hy3

/-- Any row in the test accumulator after the carve-out loop was already in the
test accumulator, or came from the train accumulator with a carved year. -/
lemma carve_fold_test_mem {R : Type} (yearOf : R → Val) (ys : List Val)
    (st st1 : Option (List R) × Option (List R))
    (hok : ys.foldlM (carveStep yearOf) st = .ok st1) (r : R)
    (hr : r ∈ unO st1.2) :
    r ∈ unO st.2 ∨ (r ∈ unO st.1 ∧ yearOf r ∈ ys) := by
  induction ys generalizing st with
  | nil =>
    cases hok
    exact Or.inl hr
  | cons y ys ih =>
    rw [List.foldlM_cons] at hok
    cases hst : st.1 with
    | none =>
      rw [show carveStep yearOf st y = .error "KeyError" by
        unfold carveStep reqCol; rw [hst]; rfl] at hok
      have hbad : (Except.error "KeyError" :
          Except String (Option (List R) × Option (List R))) = .ok st1 := hok
      exact Except.noConfusion hbad
    | some tr =>
      rw [show carveStep yearOf st y =
          .ok (some (tr.filter (fun r => ¬ yearOf r = y)),
               dfAppend st.2 (tr.filter (fun r => yearOf r = y))) by
        unfold carveStep reqCol; rw [hst]; rfl] at hok
      rcases ih _ hok with h1 | ⟨h1, h2⟩
      · rw [unO_dfAppend, List.mem_append] at h1
        rcases h1 with h1 | h1
        · exact Or.inl h1
        · have hf := List.mem_filter.mp h1
          have : yearOf r = y := by simpa using hf.2
          exact Or.inr ⟨hf.1, by simp [this]⟩
      · have hf := List.mem_filter.mp h1
        exact Or.inr ⟨hf.1, List.mem_cons_of_mem y h2⟩

/-- Inversion of a successful `split_data_attribute` run: the feature tables are
(possibly shuffled copies of) the two accumulators, and each returned target
table is the prediction column of the corresponding returned feature table. -/
lemma split_inv {R : Type} (rows : List R) (yearOf gwOf predOf : R → Val)
    (test_years test_gws : List Val) (use_gws shuffle_ : Bool) (seed : Nat)
    (spatio_temporal : Bool) (xtr xte : List R) (ytr yte : List Val)
    (hok : split_data_attribute R rows yearOf gwOf predOf test_years test_gws
      use_gws shuffle_ seed spatio_temporal = .ok (xtr, xte, ytr, yte)) :
    ∃ a b, splitAccum rows yearOf gwOf test_years test_gws use_gws spatio_temporal
        = .ok (some a, some b)
      ∧ ytr = xtr.map predOf ∧ yte = xte.map predOf
      ∧ (∀ r : R, r ∈ xtr ↔ r ∈ a) ∧ (∀ r : R, r ∈ xte ↔ r ∈ b) := by
  unfold split_data_attribute at hok
  cases hacc : splitAccum rows yearOf gwOf test_years test_gws use_gws
      spatio_temporal with
  | error e =>
    rw [hacc] at hok
    exact Except.noConfusion hok
  | ok st1 =>
    rw [hacc] at hok
    obtain ⟨o1, o2⟩ := st1
    cases o1 with
    | none => exact Except.noConfusion hok
    | some a =>
      cases o2 with
      | none => exact Except.noConfusion hok
      | some b =>
        refine ⟨a, b, rfl, ?_⟩
        unfold finishSplit at hok
        cases shuffle_ with
        | false =>
          simp only [Bool.false_eq_true, if_false, Except.ok.injEq,
            Prod.mk.injEq] at hok
          obtain ⟨h1, h2, h3, h4⟩ := hok
          subst h1; subst h2
          exact ⟨h3.symm, h4.symm, fun r => Iff.rfl, fun r => Iff.rfl⟩
        | true =>
          simp only [if_true, Except.ok.injEq, Prod.mk.injEq] at hok
          obtain ⟨h1, h2, h3, h4⟩ := hok
          subst h1; subst h2
          refine ⟨?_, ?_, ?_, ?_⟩
          · rw [← h3]
            simp only [shuffleL]
            exact (List.map_rotate predOf a seed).symm
          · rw [← h4]
            simp only [shuffleL]
            exact (List.map_rotate predOf b seed).symm
          · intro r
            simp [shuffleL, List.mem_rotate]
          · intro r
            simp [shuffleL, List.mem_rotate]

/-- Row-level description of the accumulators of `split_data_attribute`: without
the carve-out every train row's partition attribute avoids the held-out set and
every test row's lies in it; with the carve-out active (`spatio_temporal and
use_gws`), train rows avoid both `test_gws` and `test_years`, and every test row
is there because of its region or because of a carved year. -/
lemma splitAccum_mem_spec {R : Type} (rows : List R) (yearOf gwOf : R → Val)
    (test_years test_gws : List Val) (use_gws spatio_temporal : Bool)
    (st1 : Option (List R) × Option (List R))
    (hacc : splitAccum rows yearOf gwOf test_years test_gws use_gws spatio_temporal
      = .ok st1) :
    (∀ r ∈ unO st1.1, r ∈ rows ∧
        ((spatio_temporal && use_gws) = false →
          attrOfFn use_gws yearOf gwOf r ∉ (if use_gws then test_gws else test_years)) ∧
        ((spatio_temporal && use_gws) = true →
          gwOf r ∉ test_gws ∧ ∀ y ∈ test_years, yearOf r ≠ y))
  ∧ (∀ r ∈ unO st1.2, r ∈ rows ∧
        ((spatio_temporal && use_gws) = false →
          attrOfFn use_gws yearOf gwOf r ∈ (if use_gws then test_gws else test_years)) ∧
        ((spatio_temporal && use_gws) = true →
          gwOf r ∈ test_gws ∨ yearOf r ∈ test_years)) := by
  unfold splitAccum at hacc
  by_cases hc : (spatio_temporal && use_gws) = true
  · rw [if_pos hc] at hacc
    obtain ⟨hst, hug⟩ := Bool.and_eq_true .. ▸ hc
    constructor
    · intro r hr
      obtain ⟨hr0, hys⟩ := carve_fold_train_mem yearOf test_years _ st1 hacc r hr
      rcases attrStep_fold_train rows _ _ _ _ r hr0 with h0 | ⟨hrow, hattr⟩
      · exact absurd h0 (List.not_mem_nil r)
      · refine ⟨hrow, fun hf => absurd hc (by rw [hf]; simp), fun _ => ⟨?_, hys⟩⟩
        simpa [attrOfFn, hug] using hattr
    · intro r hr
      rcases carve_fold_test_mem yearOf test_years _ st1 hacc r hr with h0 | ⟨h0, hy⟩
      · rcases attrStep_fold_test rows _ _ _ _ r h0 with h1 | ⟨hrow, hattr⟩
        · exact absurd h1 (List.not_mem_nil r)
        · refine ⟨hrow, fun hf => absurd hc (by rw [hf]; simp), fun _ => Or.inl ?_⟩
          simpa [attrOfFn, hug] using hattr
      · rcases attrStep_fold_train rows _ _ _ _ r h0 with h1 | ⟨hrow, _⟩
        · exact absurd h1 (List.not_mem_nil r)
        · exact ⟨hrow, fun hf => absurd hc (by rw [hf]; simp), fun _ => Or.inr hy⟩
  · rw [if_neg hc] at hacc
    cases hacc
    constructor
    · intro r hr
      rcases attrStep_fold_train rows _ _ _ _ r hr with h1 | ⟨hrow, hattr⟩
      · exact absurd h1 (List.not_mem_nil r)
      · exact ⟨hrow, fun _ => hattr, fun ht => absurd ht hc⟩
    · intro r hr
      rcases attrStep_fold_test rows _ _ _ _ r hr with h1 | ⟨hrow, hattr⟩
      · exact absurd h1 (List.not_mem_nil r)
      · exact ⟨hrow, fun _ => hattr, fun ht => absurd ht hc⟩

/-- Claim C1: in `split_data_attribute`, no partition-attribute value (`YEAR` when
`use_gws` is false, `GW_NAME` when `use_gws` is true) appears in both the returned
train and test tables, unless the spatio-temporal carve-out
(`spatio_temporal and use_gws`) is active; in that case the train table avoids the
carved years and the held-out regions entirely, and every test row is there
because of a held-out region or a carved year — so a carved year or held-out
region never appears in the train output. -/
theorem attribute_split_partition_disjoint (R : Type) (rows : List R)
    (yearOf gwOf predOf : R → Val) (test_years test_gws : List Val)
    (use_gws shuffle_ : Bool) (seed : Nat) (spatio_temporal : Bool)
    (xtr xte : List R) (ytr yte : List Val)
    (hok : split_data_attribute R rows yearOf gwOf predOf test_years test_gws
      use_gws shuffle_ seed spatio_temporal = .ok (xtr, xte, ytr, yte)) :
    ((spatio_temporal && use_gws) = false →
      ∀ v : Val, (∃ r ∈ xtr, attrOfFn use_gws yearOf gwOf r = v) →
        ¬ ∃ r ∈ xte, attrOfFn use_gws yearOf gwOf r = v)
  ∧ ((spatio_temporal && use_gws) = true →
      (∀ r ∈ xtr, yearOf r ∉ test_years ∧ gwOf r ∉ test_gws)
      ∧ (∀ r ∈ xte, yearOf r ∈ test_years ∨ gwOf r ∈ test_gws)) := by
  obtain ⟨a, b, hacc, _, _, hma, hmb⟩ := split_inv rows yearOf gwOf predOf
    test_years test_gws use_gws shuffle_ seed spatio_temporal xtr xte ytr yte hok
  obtain ⟨hspec1, hspec2⟩ := splitAccum_mem_spec rows yearOf gwOf test_years
    test_gws use_gws spatio_temporal (some a, some b) hacc
  constructor
  · intro hc v ⟨r1, hr1, hv1⟩ ⟨r2, hr2, hv2⟩
    have h1 := (hspec1 r1 ((hma r1).mp hr1)).2.1 hc
    have h2 := (hspec2 r2 ((hmb r2).mp hr2)).2.1 hc
    rw [hv1] at h1
    rw [hv2] at h2
    exact h1 h2
  · intro hc
    constructor
    · intro r hr
      obtain ⟨hgw, hys⟩ := (hspec1 r ((hma r).mp hr)).2.2 hc
      exact ⟨fun hy => hys (yearOf r) hy rfl, hgw⟩
    · intro r hr
      rcases (hspec2 r ((hmb r).mp hr)).2.2 hc with h | h
      · exact Or.inr h
      · exact Or.inl h

/-- Claim C2: in `split_data_attribute` with shuffling enabled, the target value
at row `i` of each shuffled target table is the prediction-attribute cell of the
very row that sits at position `i` of the correspondingly shuffled feature table
(both are shuffled by the same seed over the same row count), separately for the
train pair and the test pair. -/
theorem attribute_split_shuffle_alignment (R : Type) (rows : List R)
    (yearOf gwOf predOf : R → Val) (test_years test_gws : List Val)
    (use_gws : Bool) (seed : Nat) (spatio_temporal : Bool)
    (xtr xte : List R) (ytr yte : List Val)
    (hok : split_data_attribute R rows yearOf gwOf predOf test_years test_gws
      use_gws true seed spatio_temporal = .ok (xtr, xte, ytr, yte)) :
    ytr = xtr.map predOf ∧ yte = xte.map predOf
  ∧ (∀ i : Nat, ytr[i]? = (xtr[i]?).map predOf)
  ∧ (∀ i : Nat, yte[i]? = (xte[i]?).map predOf) := by
  obtain ⟨a, b, _, h1, h2, _, _⟩ := split_inv rows yearOf gwOf predOf
    test_years test_gws use_gws true seed spatio_temporal xtr xte ytr yte hok
  refine ⟨h1, h2, fun i => ?_, fun i => ?_⟩
  · rw [h1, List.getElem?_map]
  · rw [h2, List.getElem?_map]

/-- When at least one present partition value is held out and at least one is not,
both accumulators of `split_data_attribute` end up non-pristine, so the run
succeeds. -/
lemma splitAccum_ok_of_present {R : Type} (rows : List R) (yearOf gwOf : R → Val)
    (test_years test_gws : List Val) (use_gws spatio_temporal : Bool)
    (h1 : ∃ r ∈ rows, attrOfFn use_gws yearOf gwOf r ∈
      (if use_gws then test_gws else test_years))
    (h2 : ∃ r ∈ rows, attrOfFn use_gws yearOf gwOf r ∉
      (if use_gws then test_gws else test_years)) :
    ∃ a b, splitAccum rows yearOf gwOf test_years test_gws use_gws spatio_temporal
      = .ok (some a, some b) := by
  obtain ⟨r1, hr1, hv1⟩ := h1
  obtain ⟨r2, hr2, hv2⟩ := h2
  have hsel1 : attrOfFn use_gws yearOf gwOf r1 ∈
      ((rows.map (attrOfFn use_gws yearOf gwOf)).dedup) :=
    List.mem_dedup.mpr (List.mem_map_of_mem _ hr1)
  have hsel2 : attrOfFn use_gws yearOf gwOf r2 ∈
      ((rows.map (attrOfFn use_gws yearOf gwOf)).dedup) :=
    List.mem_dedup.mpr (List.mem_map_of_mem _ hr2)
  have htest : (((rows.map (attrOfFn use_gws yearOf gwOf)).dedup).foldl
      (attrStep rows (attrOfFn use_gws yearOf gwOf)
        (if use_gws then test_gws else test_years)) (none, none)).2.isSome = true :=
    attrStep_fold_test_some _ _ _ _ _ (Or.inr ⟨_, hsel1, hv1⟩)
  have htrain : (((rows.map (attrOfFn use_gws yearOf gwOf)).dedup).foldl
      (attrStep rows (attrOfFn use_gws yearOf gwOf)
        (if use_gws then test_gws else test_years)) (none, none)).1.isSome = true :=
    attrStep_fold_train_some _ _ _ _ _ (Or.inr ⟨_, hsel2, hv2⟩)
  unfold splitAccum
  by_cases hc : (spatio_temporal && use_gws) = true
  · rw [if_pos hc]
    obtain ⟨st1, hok, hs1, hs2⟩ := carve_fold_ok yearOf test_years _ htrain
    obtain ⟨A, hA⟩ := Option.isSome_iff_exists.mp hs1
    obtain ⟨B, hB⟩ := Option.isSome_iff_exists.mp (hs2 htest)
    refine ⟨A, B, ?_⟩
    rw [hok]
    simp only [← hA, ← hB]
  · rw [if_neg hc]
    obtain ⟨A, hA⟩ := Option.isSome_iff_exists.mp htrain
    obtain ⟨B, hB⟩ := Option.isSome_iff_exists.mp htest
    exact ⟨A, B, by simp only [← hA, ← hB]⟩

/-- Claim C9 (amended): a requested held-out partition value absent from the data
contributes zero rows to the test output, and the call completes without error
provided at least one present partition value is held out and at least one is not
(the unamended all-absent case instead raises `KeyError`; see the
counterexample). -/
theorem missing_partition_value_noop (R : Type) (rows : List R)
    (yearOf gwOf predOf : R → Val) (test_years test_gws : List Val)
    (use_gws shuffle_ : Bool) (seed : Nat) (spatio_temporal : Bool)
    (h1 : ∃ r ∈ rows, attrOfFn use_gws yearOf gwOf r ∈
      (if use_gws then test_gws else test_years))
    (h2 : ∃ r ∈ rows, attrOfFn use_gws yearOf gwOf r ∉
      (if use_gws then test_gws else test_years)) :
    ∃ xtr xte ytr yte,
      split_data_attribute R rows yearOf gwOf predOf test_years test_gws use_gws
        shuffle_ seed spatio_temporal = .ok (xtr, xte, ytr, yte)
      ∧ ∀ v ∈ (if use_gws then test_gws else test_years),
          (∀ r ∈ rows, attrOfFn use_gws yearOf gwOf r ≠ v) →
          ∀ r ∈ xte, attrOfFn use_gws yearOf gwOf r ≠ v := by
  obtain ⟨a, b, hacc⟩ := splitAccum_ok_of_present rows yearOf gwOf test_years
    test_gws use_gws spatio_temporal h1 h2
  have hspec := splitAccum_mem_spec rows yearOf gwOf test_years test_gws use_gws
    spatio_temporal (some a, some b) hacc
  have hbrows : ∀ r ∈ b, r ∈ rows := fun r hr => (hspec.2 r hr).1
  cases hs : shuffle_ with
  | true =>
    refine ⟨shuffleL seed a, shuffleL seed b, shuffleL seed (a.map predOf),
      shuffleL seed (b.map predOf), ?_, ?_⟩
    · unfold split_data_attribute
      rw [hacc]
      unfold finishSplit
      simp only [if_true]
    · intro v _ habsent r hr
      have hrb : r ∈ b := by simpa [shuffleL, List.mem_rotate] using hr
      exact habsent r (hbrows r hrb)
  | false =>
    refine ⟨a, b, a.map predOf, b.map predOf, ?_, ?_⟩
    · unfold split_data_attribute
      rw [hacc]
      unfold finishSplit
      simp only [Bool.false_eq_true, if_false]
    · intro v _ habsent r hr
      exact habsent r (hbrows r hr)

/-- Witness for C1: a concrete two-row table split on `YEAR` with 20 held out;
the hypotheses of the theorem are discharged at this input. -/
theorem attribute_split_partition_disjoint_witness :
    ((false && false) = false →
      ∀ v : Val, (∃ r ∈ ([10] : List Nat),
          attrOfFn false (fun r => Val.num r) (fun _ => Val.str "A") r = v) →
        ¬ ∃ r ∈ ([20] : List Nat),
          attrOfFn false (fun r => Val.num r) (fun _ => Val.str "A") r = v)
  ∧ ((false && false) = true →
      (∀ r ∈ ([10] : List Nat),
          Val.num r ∉ [Val.num 20] ∧ Val.str "A" ∉ ([] : List Val))
      ∧ (∀ r ∈ ([20] : List Nat),
          Val.num r ∈ [Val.num 20] ∨ Val.str "A" ∈ ([] : List Val))) :=
  attribute_split_partition_disjoint Nat [10, 20] (fun r => Val.num r)
    (fun _ => Val.str "A") (fun r => Val.num r) [Val.num 20] [] false false 0 false
    [10] [20] [Val.num 10] [Val.num 20] rfl

/-- Witness for C2: a concrete three-row table split on `YEAR` with 20 held out,
shuffled with seed 1; the hypotheses of the theorem are discharged here. -/
theorem attribute_split_shuffle_alignment_witness :
    [Val.num 30, Val.num 10] = List.map (fun r : Nat => Val.num r) [30, 10]
  ∧ [Val.num 20] = List.map (fun r : Nat => Val.num r) [20]
  ∧ (∀ i : Nat, [Val.num 30, Val.num 10][i]?
      = Option.map (fun r : Nat => Val.num r) (([30, 10] : List Nat)[i]?))
  ∧ (∀ i : Nat, [Val.num 20][i]?
      = Option.map (fun r : Nat => Val.num r) (([20] : List Nat)[i]?)) :=
  attribute_split_shuffle_alignment Nat [10, 20, 30] (fun r : Nat => Val.num r)
    (fun _ => Val.str "A") (fun r : Nat => Val.num r) [Val.num 20] [] false 1 false
    [30, 10] [20] [Val.num 30, Val.num 10] [Val.num 20] rfl

/-- Counterexample to C9 as stated: a one-row table whose only year is 2015,
with held-out year 2016 (absent).  No selection value is held out, so the test
accumulator stays the pristine `pd.DataFrame()` and line 200
(`y_test_df = x_test_df[pred_attr]`) raises `KeyError` instead of silently
returning an empty test set. -/
theorem missing_partition_value_counterexample :
    split_data_attribute Nat [0] (fun _ => Val.num 2015) (fun _ => Val.str "A")
      (fun _ => Val.num 7) [Val.num 2016] [] false false 0 false
      = .error "KeyError" := rfl

/-- Witness for the amended C9: years {10, 20} with held-out years {20, 99}; the
absent value 99 contributes zero test rows and the call succeeds. -/
theorem missing_partition_value_noop_witness :
    ∃ xtr xte ytr yte,
      split_data_attribute Nat [10, 20] (fun r => Val.num r) (fun _ => Val.str "A")
        (fun r => Val.num r) [Val.num 20, Val.num 99] [] false false 0 false
        = .ok (xtr, xte, ytr, yte)
      ∧ ∀ v ∈ (if false then ([] : List Val) else [Val.num 20, Val.num 99]),
          (∀ r ∈ ([10, 20] : List Nat),
            attrOfFn false (fun r => Val.num r) (fun _ => Val.str "A") r ≠ v) →
          ∀ r ∈ xte,
            attrOfFn false (fun r => Val.num r) (fun _ => Val.str "A") r ≠ v :=
  missing_partition_value_noop Nat [10, 20] (fun r => Val.num r)
    (fun _ => Val.str "A") (fun r => Val.num r) [Val.num 20, Val.num 99] []
    false false 0 false ⟨20, by decide, by decide⟩ ⟨10, by decide, by decide⟩

/-- Python `s.rfind(c)`: index of the last occurrence of `c`, or -1. -/
def pyRfind (c : Char) (l : List Char) : Int :=
  match l.reverse.findIdx? (fun x => x = c) with
  | none => -1
  | some i => (l.length : Int) - 1 - (i : Int)

/-- Clamp a Python slice bound (negative values count from the end). -/
def pyIdx (n : Nat) (i : Int) : Nat :=
  if i < 0 then ((n : Int) + i).toNat else min i.toNat n

/-- Python slice `l[a:b]` for integer bounds. -/
def pySlice (l : List Char) (a b : Int) : List Char :=
  (l.take (pyIdx l.length b)).drop (pyIdx l.length a)

/-- Filename decoding used at lines 47-48, 64 and 411:
`variable = f[f.rfind(os.sep)+1 : f.rfind('_')]`,
`year = f[f.rfind('_')+1 : f.rfind('.')]` (with `os.sep = '/'`). -/
def parseVarYear (f : String) : String × String :=
  let l := f.data
  let sep := pyRfind '_' l
  (⟨pySlice l (pyRfind '/' l + 1) sep⟩, ⟨pySlice l (sep + 1) (pyRfind '.' l)⟩)

/-- Decimal digit value of a character, if it is one. -/
def digitVal (c : Char) : Option Nat :=
  if 48 ≤ c.toNat ∧ c.toNat ≤ 57 then some (c.toNat - 48) else none

/-- Accumulate a decimal numeral; `none` on the first non-digit. -/
def digitsAux : List Char → Nat → Option Nat
  | [], acc => some acc
  | c :: cs, acc =>
    match digitVal c with
    | none => none
    | some d => digitsAux cs (acc * 10 + d)

/-- Python `int(s)` (`none` = `ValueError`): an optional minus sign followed by
at least one decimal digit.  (Python also tolerates surrounding whitespace, a
plus sign and underscore grouping — immaterial here: the claims only involve
plain digit strings and plain non-numeric strings.) -/
def pyInt (s : String) : Option Int :=
  match s.data with
  | [] => none
  | '-' :: cs =>
    match cs with
    | [] => none
    | _ =>
      match digitsAux cs 0 with
      | none => none
      | some n => some (-(n : Int))
  | cs =>
    match digitsAux cs 0 with
    | none => none
    | some n => some (n : Int)

/-- Insert a file under a year key, preserving dict insertion order
(`raster_file_dict[int(year)].append(f)` on a `defaultdict(list)`). -/
def dictAdd (d : List (Int × List String)) (y : Int) (f : String) :
    List (Int × List String) :=
  if d.any (fun p => p.1 = y) then
    d.map (fun p => if p.1 = y then (p.1, p.2 ++ [f]) else p)
  else d ++ [(y, [f])]

/-- One file of the scanning loop (lines 46-50).  Python's `and` short-circuits:
when the parsed variable is excluded, `int(year)` is never evaluated, so a
malformed year in an excluded-variable file raises nothing. -/
def scanStep (exclude_vars : List String) (exclude_years : List Int)
    (d : List (Int × List String)) (f : String) :
    Except String (List (Int × List String)) :=
  let vy := parseVarYear f
  if vy.1 ∈ exclude_vars then .ok d
  else
    match pyInt vy.2 with
    | none => .error "ValueError"
    | some y => if y ∈ exclude_years then .ok d else .ok (dictAdd d y f)

/-- The raster corpus scanner: the file-grouping loop of `create_dataframe`
(lines 45-50).  The `files` list stands for `glob(input_file_dir + pattern)`. -/
def scanFiles (files : List String) (exclude_vars : List String)
    (exclude_years : List Int) : Except String (List (Int × List String)) :=
  files.foldlM (scanStep exclude_vars exclude_years) []

/-- A pandas DataFrame: named columns over a list of rows. -/
structure PDF where
  cols : List String
  rows : List (List Val)
deriving DecidableEq, Repr

/-- `pd.DataFrame(data=dict)`: columns in dict insertion order; raises
`ValueError` when the value vectors have unequal lengths. -/
def mkPDF (d : List (String × List Val)) : Except String PDF :=
  match d with
  | [] => .ok ⟨[], []⟩
  | (_, v) :: rest =>
    if rest.all (fun p => p.2.length = v.length) then
      .ok ⟨d.map (fun p => p.1),
           (List.range v.length).map (fun i => d.map (fun p => p.2.getD i Val.na))⟩
    else .error "ValueError"

/-- Realign a row from one column list to another, filling absent columns with
missing values. -/
def reRow (oldCols newCols : List String) (r : List Val) : List Val :=
  newCols.map (fun c =>
    match oldCols.findIdx? (fun x => x = c) with
    | some i => r.getD i Val.na
    | none => Val.na)

/-- `df.append(other)`: vertical concatenation; with differing column sets the
columns are unioned and absent cells become missing. -/
def PDF.append (d1 d2 : PDF) : PDF :=
  if d1.cols = d2.cols then ⟨d1.cols, d1.rows ++ d2.rows⟩
  else
    let cols := d1.cols ++ d2.cols.filter (fun c => c ∉ d1.cols)
    ⟨cols, d1.rows.map (reRow d1.cols cols) ++ d2.rows.map (reRow d2.cols cols)⟩

/-- `df[c] = vals` for a list `vals`: raises `ValueError` unless the length
matches the row count; overwrites an existing column or appends a new one. -/
def PDF.setCol (df : PDF) (c : String) (vals : List Val) : Except String PDF :=
  if vals.length = df.rows.length then
    match df.cols.findIdx? (fun x => x = c) with
    | some i => .ok ⟨df.cols, (df.rows.zip vals).map (fun p => p.1.set i p.2)⟩
    | none => .ok ⟨df.cols ++ [c], (df.rows.zip vals).map (fun p => p.1 ++ [p.2])⟩
  else .error "ValueError"

/-- `df.dropna(axis=0)`: drop every row containing a missing value. -/
def PDF.dropna (df : PDF) : PDF :=
  ⟨df.cols, df.rows.filter (fun r => ¬ Val.na ∈ r)⟩

/-- Code-point comparison of strings, the order Python `sorted` uses. -/
def charListLt : List Char → List Char → Bool
  | [], [] => false
  | [], _ :: _ => true
  | _ :: _, [] => false
  | c :: cs, d :: ds =>
    if c.toNat < d.toNat then true
    else if d.toNat < c.toNat then false
    else charListLt cs ds

/-- Stable insertion into a code-point-sorted string list. -/
def insertStr (s : String) : List String → List String
  | [] => [s]
  | t :: ts => if charListLt s.data t.data then s :: t :: ts else t :: insertStr s ts

/-- Python `sorted` on a string list. -/
def sortStrs (l : List String) : List String := l.foldr insertStr []

/-- `reindex_df` (lines 82-95): an empty/None column list means "use all present
columns and force ordering"; with ordering the names are sorted; `df.reindex`
then selects each requested column, filling an absent one entirely with missing
values (pandas `reindex` never raises on an absent label). -/
def reindex_df (df : PDF) (column_names : List String) (ordering : Bool) : PDF :=
  let cn := if column_names.isEmpty then df.cols else column_names
  let ord := if column_names.isEmpty then true else ordering
  let cn2 := if ord then sortStrs cn else cn
  ⟨cn2, df.rows.map (fun r => cn2.map (fun c =>
      match df.cols.findIdx? (fun x => x = c) with
      | some i => r.getD i Val.na
      | none => Val.na))⟩

/-- Stable insertion sort of the year dictionary by key
(`years = sorted(raster_file_dict.keys())`; keys are unique). -/
def insertPair (p : Int × List String) :
    List (Int × List String) → List (Int × List String)
  | [] => [p]
  | q :: qs => if p.1 ≤ q.1 then p :: q :: qs else q :: insertPair p qs

/-- Sort the year dictionary entries by ascending year. -/
def sortPairs (l : List (Int × List String)) : List (Int × List String) :=
  l.foldr insertPair []

/-- One raster file of the per-year loop (lines 61-65): read the grid, flatten
it, and store it in `raster_dict` under the parsed variable name.  The dict is
*never cleared between years*, so a stale entry survives when a variable has no
file for a later year.  The second component tracks `raster_arr.shape[0]` of the
last file read. -/
def fileStep (readRaster : String → List Val)
    (st : List (String × List Val) × Nat) (f : String) :
    List (String × List Val) × Nat :=
  let arr := readRaster f
  (if st.1.any (fun p => p.1 = (parseVarYear f).1) then
     st.1.map (fun p => if p.1 = (parseVarYear f).1 then (p.1, arr) else p)
   else st.1 ++ [((parseVarYear f).1, arr)], arr.length)

/-- `raster_dict` after one year's files (lines 61-65) together with the `YEAR`
entry of line 67 when `make_year_col` is set (replicated to the length of the
last grid read, `raster_arr.shape[0]`). -/
def yearDict (readRaster : String → List Val) (make_year_col : Bool)
    (st : List (String × List Val) × Option PDF × Nat) (p : Int × List String) :
    List (String × List Val) :=
  let fs := p.2.foldl (fileStep readRaster) (st.1, st.2.2)
  if make_year_col then
    (if fs.1.any (fun q => q.1 = "YEAR") then
       fs.1.map (fun q => if q.1 = "YEAR" then
         (q.1, List.replicate fs.2 (Val.num p.1)) else q)
     else fs.1 ++ [("YEAR", List.replicate fs.2 (Val.num p.1))])
  else fs.1

/-- One year of the assembly loop (lines 59-72): read the year's files, add the
`YEAR` column, build the year's DataFrame and append it to the accumulated one
(lines 66-72). -/
def yearStep (readRaster : String → List Val) (make_year_col : Bool)
    (st : List (String × List Val) × Option PDF × Nat) (p : Int × List String) :
    Except String (List (String × List Val) × Option PDF × Nat) := do
  let pdf ← mkPDF (yearDict readRaster make_year_col st p)
  pure (yearDict readRaster make_year_col st p,
    some (match st.2.1 with | none => pdf | some d => d.append pdf),
    (p.2.foldl (fileStep readRaster) (st.1, st.2.2)).2)

/-- `create_dataframe` up to (and including) the `GW_NAME` assignment of line 73:
scan, check `years[0]` indexing, assemble year by year in ascending year order,
then set `df['GW_NAME'] = gw_arr.tolist() * len(years)`.  The flattened region
label grid `gw_arr` (produced by the external `rops.get_gw_info_arr`) is the
parameter `gwArr`, and `readRaster` stands for `rops.read_raster_as_arr`
composed with flattening. -/
def createPreNa (files : List String) (readRaster : String → List Val)
    (gwArr : List Val) (exclude_years : List Int) (exclude_vars : List String)
    (make_year_col : Bool) : Except String PDF := do
  let fdict ← scanFiles files exclude_vars exclude_years
  if fdict.isEmpty then .error "IndexError"
  else do
    let st ← (sortPairs fdict).foldlM (yearStep readRaster make_year_col) ([], none, 0)
    match st.2.1 with
    | none => .error "IndexError"
    | some df0 => df0.setCol "GW_NAME" (List.flatten (List.replicate fdict.length gwArr))

/-- `create_dataframe` (lines 22-79): assemble, optionally drop rows with
missing values, and reindex the columns.  (The trailing `to_csv` is I/O only.) -/
def create_dataframe (files : List String) (readRaster : String → List Val)
    (gwArr : List Val) (column_names : List String) (exclude_years : List Int)
    (exclude_vars : List String) (make_year_col ordering remove_na : Bool) :
    Except String PDF := do
  let df1 ← createPreNa files readRaster gwArr exclude_years exclude_vars make_year_col
  let df2 := if remove_na then df1.dropna else df1
  pure (reindex_df df2 column_names ordering)

/-- The values of column `c` of a DataFrame (missing where the column is absent). -/
def colVals (df : PDF) (c : String) : List Val :=
  df.rows.map (fun r =>
    match df.cols.findIdx? (fun x => x = c) with
    | some i => r.getD i Val.na
    | none => Val.na)

lemma mem_insertStr (s t : String) (l : List String) :
    t ∈ insertStr s l ↔ t = s ∨ t ∈ l := by
  induction l with
  | nil => simp [insertStr]
  | cons u us ih =>
    unfold insertStr
    by_cases hc : charListLt s.data u.data = true
    · rw [if_pos hc]
      simp only [List.mem_cons]
    · rw [if_neg hc]
      simp only [List.mem_cons, ih]
      tauto

lemma mem_sortStrs (t : String) (l : List String) : t ∈ sortStrs l ↔ t ∈ l := by
  induction l with
  | nil => simp [sortStrs]
  | cons u us ih =>
    show t ∈ insertStr u (sortStrs us) ↔ _
    rw [mem_insertStr, ih, List.mem_cons]

/-- Claim C5 (amended): with an explicit non-empty column list, `reindex_df`
returns exactly the requested columns — in the requested order when `ordering` is
false, in code-point-sorted order when it is true — and never fails: a requested
column absent from the table comes back filled entirely with missing values
(pandas `reindex` inserts NaN columns instead of raising). -/
theorem reindex_requested_columns (df : PDF) (column_names : List String)
    (ordering : Bool) (h : column_names ≠ []) :
    (reindex_df df column_names ordering).cols
      = (if ordering = true then sortStrs column_names else column_names)
  ∧ (reindex_df df column_names ordering).rows.length = df.rows.length
  ∧ (∀ c ∈ column_names, c ∉ df.cols →
      colVals (reindex_df df column_names ordering) c
        = List.replicate df.rows.length Val.na) := by
  have hne : column_names.isEmpty = false := by
    cases column_names with
    | nil => exact absurd rfl h
    | cons a l => rfl
  unfold reindex_df
  simp only [hne, Bool.false_eq_true, if_false]
  refine ⟨by cases ordering <;> simp, by simp, ?_⟩
  intro c hc hcabs
  set cn2 := if ordering = true then sortStrs column_names else column_names with hcn2
  have hc2 : c ∈ cn2 := by
    cases ordering with
    | true => simpa [hcn2, mem_sortStrs] using hc
    | false => simpa [hcn2] using hc
  have habs : df.cols.findIdx? (fun x => x = c) = none :=
    List.findIdx?_eq_none_iff.mpr (fun x hx => by
      simp only [decide_eq_false_iff_not]
      intro hxc
      exact hcabs (hxc ▸ hx))
  have hg : (fun c2 => match df.cols.findIdx? (fun x => x = c2) with
      | some i => Val.na
      | none => Val.na) = fun _ => Val.na := by
    funext c2
    cases df.cols.findIdx? (fun x => x = c2) <;> rfl
  obtain ⟨i, hi⟩ : ∃ i, cn2.findIdx? (fun x => x = c) = some i := by
    cases hfi : cn2.findIdx? (fun x => x = c) with
    | none =>
      have := List.findIdx?_eq_none_iff.mp hfi c hc2
      simp at this
    | some i => exact ⟨i, rfl⟩
  obtain ⟨hilt, hpi, _⟩ := List.findIdx?_eq_some_iff_getElem.mp hi
  have hci : cn2[i] = c := by simpa using hpi
  unfold colVals
  simp only [hi]
  rw [List.eq_replicate_iff]
  refine ⟨by simp, ?_⟩
  intro b hb
  simp only [List.map_map, List.mem_map, Function.comp] at hb
  obtain ⟨r, _, hbe⟩ := hb
  rw [← hbe]
  rw [List.getD_eq_getElem?_getD, List.getElem?_map, List.getElem?_eq_getElem hilt,
    hci]
  simp [habs]

/-- Counterexample to C5 as stated: requesting column "A" from a table that only
has column "B" does not fail — the result is a completed table whose "A" column
is entirely missing values; and with `ordering=True` an explicit list comes back
sorted, not in the requested order. -/
theorem reindex_absent_column_counterexample :
    reindex_df ⟨["B"], [[Val.num 1]]⟩ ["B", "A"] false
      = ⟨["B", "A"], [[Val.num 1, Val.na]]⟩
  ∧ reindex_df ⟨["B", "A"], [[Val.num 1, Val.num 2]]⟩ ["B", "A"] true
      = ⟨["A", "B"], [[Val.num 2, Val.num 1]]⟩ := by
  constructor <;> rfl

/-- Witness for the amended C5 at the concrete absent-column input. -/
theorem reindex_requested_columns_witness :
    (["B", "A"] : List String) ≠ []
  ∧ ((reindex_df ⟨["B"], [[Val.num 1]]⟩ ["B", "A"] false).cols
      = (if false = true then sortStrs ["B", "A"] else ["B", "A"])
    ∧ (reindex_df ⟨["B"], [[Val.num 1]]⟩ ["B", "A"] false).rows.length
      = (⟨["B"], [[Val.num 1]]⟩ : PDF).rows.length
    ∧ (∀ c ∈ (["B", "A"] : List String), c ∉ (⟨["B"], [[Val.num 1]]⟩ : PDF).cols →
        colVals (reindex_df ⟨["B"], [[Val.num 1]]⟩ ["B", "A"] false) c
          = List.replicate (⟨["B"], [[Val.num 1]]⟩ : PDF).rows.length Val.na)) :=
  ⟨by decide, reindex_requested_columns ⟨["B"], [[Val.num 1]]⟩ ["B", "A"] false
    (by decide)⟩

/-- The raster store of the C7 scenario: four files, each a flattened 2x2 grid
with no no-data cells (this is `rops.read_raster_as_arr` plus flattening). -/
def rrScenario : String → List Val := fun f =>
  if f = "d/ET_2015.tif" then [Val.num 1, Val.num 2, Val.num 3, Val.num 4]
  else if f = "d/P_2015.tif" then [Val.num 5, Val.num 6, Val.num 7, Val.num 8]
  else if f = "d/ET_2016.tif" then [Val.num 9, Val.num 10, Val.num 11, Val.num 12]
  else [Val.num 13, Val.num 14, Val.num 15, Val.num 16]

/-- The table the C7 scenario assembles to. -/
def scenarioDF : PDF :=
  ⟨["ET", "GW_NAME", "P", "YEAR"],
   [[Val.num 1, Val.str "A", Val.num 5, Val.num 2015],
    [Val.num 2, Val.str "A", Val.num 6, Val.num 2015],
    [Val.num 3, Val.str "A", Val.num 7, Val.num 2015],
    [Val.num 4, Val.str "A", Val.num 8, Val.num 2015],
    [Val.num 9, Val.str "A", Val.num 13, Val.num 2016],
    [Val.num 10, Val.str "A", Val.num 14, Val.num 2016],
    [Val.num 11, Val.str "A", Val.num 15, Val.num 2016],
    [Val.num 12, Val.str "A", Val.num 16, Val.num 2016]]⟩

/-- Claim C7: with files `ET_2015`, `P_2015`, `ET_2016`, `P_2016` (2x2 grids, no
no-data) and a region grid labelling every cell "A", assembling with no
exclusions and `make_year_col=True` yields an 8-row table with column set
`{ET, P, YEAR, GW_NAME}` (materialised in lexicographic order by the default
reindex), `YEAR = [2015]*4 ++ [2016]*4`, and `GW_NAME` constantly "A". -/
theorem concrete_scenario_assembly :
    create_dataframe ["d/ET_2015.tif", "d/P_2015.tif", "d/ET_2016.tif",
        "d/P_2016.tif"] rrScenario (List.replicate 4 (Val.str "A")) [] [] []
        true false true = .ok scenarioDF
  ∧ scenarioDF.rows.length = 8
  ∧ scenarioDF.cols = ["ET", "GW_NAME", "P", "YEAR"]
  ∧ colVals scenarioDF "YEAR"
      = List.replicate 4 (Val.num 2015) ++ List.replicate 4 (Val.num 2016)
  ∧ colVals scenarioDF "GW_NAME" = List.replicate 8 (Val.str "A") := by
  refine ⟨?_, rfl, rfl, ?_, ?_⟩ <;> rfl

/-- The scanning fold aborts with an error as soon as some file's parsed variable
is not excluded and its year substring fails integer parsing. -/
lemma scanFold_error (exv : List String) (exy : List Int) (files : List String)
    (d : List (Int × List String))
    (h : ∃ f ∈ files, (parseVarYear f).1 ∉ exv ∧ pyInt (parseVarYear f).2 = none) :
    ∃ e, files.foldlM (scanStep exv exy) d = .error e := by
  induction files generalizing d with
  | nil =>
    obtain ⟨f, hf, _⟩ := h
    exact absurd hf (List.not_mem_nil f)
  | cons g gs ih =>
    rw [List.foldlM_cons]
    obtain ⟨f, hf, hvar, hyear⟩ := h
    rcases List.mem_cons.mp hf with rfl | hf2
    · refine ⟨"ValueError", ?_⟩
      simp only [scanStep]
      rw [if_neg hvar, hyear]
      rfl
    · cases hstep : scanStep exv exy d g with
      | error e => exact ⟨e, rfl⟩
      | ok d2 =>
        obtain ⟨e, he⟩ := ih d2 ⟨f, hf2, hvar, hyear⟩
        exact ⟨e, he⟩

/-- Claim C8 (amended): the scan fails (with the `ValueError` that `int(year)`
raises — the spec's ParseError) whenever some matching file has a non-parseable
year substring AND its parsed variable is not excluded; a file whose variable is
excluded is skipped before year parsing (Python's `and` short-circuits), so its
malformed year aborts nothing. -/
theorem scanner_parse_error (files : List String) (exclude_vars : List String)
    (exclude_years : List Int)
    (h : ∃ f ∈ files, (parseVarYear f).1 ∉ exclude_vars ∧
      pyInt (parseVarYear f).2 = none) :
    ∃ e, scanFiles files exclude_vars exclude_years = .error e :=
  scanFold_error exclude_vars exclude_years files [] h

/-- Counterexample to C8 as stated: `d/X_ab.tif` matches the pattern and its year
substring "ab" is not integer-parseable, yet with variable "X" excluded the scan
succeeds — no ParseError propagates. -/
theorem scanner_parse_error_counterexample :
    scanFiles ["d/X_ab.tif"] ["X"] [] = .ok []
  ∧ pyInt (parseVarYear "d/X_ab.tif").2 = none := by
  constructor <;> rfl

/-- Witness for the amended C8: a non-excluded file with year substring "ab". -/
theorem scanner_parse_error_witness :
    (∃ f ∈ ["d/P_ab.tif"], (parseVarYear f).1 ∉ ([] : List String) ∧
      pyInt (parseVarYear f).2 = none)
  ∧ ∃ e, scanFiles ["d/P_ab.tif"] [] [] = .error e :=
  ⟨⟨"d/P_ab.tif", List.mem_singleton.mpr rfl, by simp, rfl⟩,
   scanner_parse_error ["d/P_ab.tif"] [] []
     ⟨"d/P_ab.tif", List.mem_singleton.mpr rfl, by simp, rfl⟩⟩

/-- Row-shape well-formedness: every row has one cell per column. -/
def PDF.wf (df : PDF) : Prop := ∀ r ∈ df.rows, r.length = df.cols.length

lemma mkPDF_ok (d : List (String × List Val)) (L : Nat) (hd : d ≠ [])
    (hL : ∀ p ∈ d, p.2.length = L) :
    ∃ pdf, mkPDF d = .ok pdf ∧ pdf.rows.length = L ∧ pdf.wf := by
  cases d with
  | nil => exact absurd rfl hd
  | cons p rest =>
    obtain ⟨k, v⟩ := p
    have hv : v.length = L := hL (k, v) (List.mem_cons_self (k, v) rest)
    have hall : rest.all (fun q => q.2.length = v.length) = true := by
      rw [List.all_eq_true]
      intro q hq
      simp only [decide_eq_true_eq]
      rw [hL q (List.mem_cons_of_mem (k, v) hq), hv]
    refine ⟨⟨((k, v) :: rest).map (fun q => q.1),
      (List.range v.length).map (fun i =>
        ((k, v) :: rest).map (fun q => q.2.getD i Val.na))⟩, ?_, ?_, ?_⟩
    · simp only [mkPDF]
      rw [if_pos hall]
    · simp [hv]
    · intro r hr
      obtain ⟨i, _, rfl⟩ := List.mem_map.mp hr
      simp

lemma append_rows_length (d1 d2 : PDF) :
    (d1.append d2).rows.length = d1.rows.length + d2.rows.length := by
  unfold PDF.append
  by_cases h : d1.cols = d2.cols <;> simp [h]

lemma append_wf (d1 d2 : PDF) (h1 : d1.wf) (h2 : d2.wf) : (d1.append d2).wf := by
  unfold PDF.append
  by_cases h : d1.cols = d2.cols
  · rw [if_pos h]
    intro r hr
    rcases List.mem_append.mp hr with hr | hr
    · exact h1 r hr
    · rw [h2 r hr, h]
  · rw [if_neg h]
    intro r hr
    rcases List.mem_append.mp hr with hr | hr <;>
      obtain ⟨r0, _, rfl⟩ := List.mem_map.mp hr <;> simp [reRow]

lemma setCol_spec (df : PDF) (c : String) (vals : List Val)
    (h : vals.length = df.rows.length) :
    ∃ df2, df.setCol c vals = .ok df2
      ∧ df2.rows.length = df.rows.length ∧ (df.wf → df2.wf) := by
  unfold PDF.setCol
  rw [if_pos h]
  cases hfi : df.cols.findIdx? (fun x => x = c) with
  | some i =>
    refine ⟨_, rfl, ?_, ?_⟩
    · simp [List.length_zip, h]
    · intro hwf r hr
      simp only [List.mem_map] at hr
      obtain ⟨q, hq, rfl⟩ := hr
      simp only [List.length_set]
      exact hwf q.1 (List.of_mem_zip hq).1
  | none =>
    refine ⟨_, rfl, ?_, ?_⟩
    · simp [List.length_zip, h]
    · intro hwf r hr
      simp only [List.mem_map] at hr
      obtain ⟨q, hq, rfl⟩ := hr
      simp only [List.length_append, List.length_cons, List.length_nil]
      rw [hwf q.1 (List.of_mem_zip hq).1]

lemma fileStep_spec (rr : String → List Val) (L : Nat)
    (st : List (String × List Val) × Nat) (f : String)
    (hL : (rr f).length = L) (hst : ∀ p ∈ st.1, p.2.length = L) :
    (∀ p ∈ (fileStep rr st f).1, p.2.length = L)
  ∧ (fileStep rr st f).2 = L ∧ (fileStep rr st f).1 ≠ [] := by
  unfold fileStep
  refine ⟨?_, hL, ?_⟩
  · by_cases hc : st.1.any (fun p => p.1 = (parseVarYear f).1)
    · simp only [hc, if_true]
      intro p hp
      obtain ⟨q, hq, rfl⟩ := List.mem_map.mp hp
      by_cases hqk : q.1 = (parseVarYear f).1
      · simp [hqk, hL]
      · simp only [hqk, if_false]
        exact hst q hq
    · simp only [hc, if_false]
      intro p hp
      rcases List.mem_append.mp hp with hp | hp
      · exact hst p hp
      · rcases List.mem_singleton.mp hp with rfl
        exact hL
  · by_cases hc : st.1.any (fun p => p.1 = (parseVarYear f).1)
    · simp only [hc, if_true]
      cases hd : st.1 with
      | nil => rw [hd] at hc; simp [List.any_nil] at hc
      | cons a l => simp
    · simp only [hc, if_false]
      simp

/-- A successful scan step leaves the dictionary unchanged or appends one file
under one year key. -/
lemma scanStep_cases (exv : List String) (exy : List Int)
    (d d2 : List (Int × List String)) (f : String)
    (hok : scanStep exv exy d f = .ok d2) :
    d2 = d ∨ ∃ y, d2 = dictAdd d y f := by
  unfold scanStep at hok
  by_cases hc : (parseVarYear f).1 ∈ exv
  · rw [if_pos hc] at hok
    exact Or.inl (Except.ok.inj hok).symm
  · rw [if_neg hc] at hok
    cases hy : pyInt (parseVarYear f).2 with
    | none =>
      rw [hy] at hok
      exact Except.noConfusion hok
    | some y =>
      rw [hy] at hok
      have hok2 : (if y ∈ exy then Except.ok d else Except.ok (dictAdd d y f) :
          Except String (List (Int × List String))) = .ok d2 := hok
      by_cases hey : y ∈ exy
      · rw [if_pos hey] at hok2
        exact Or.inl (Except.ok.inj hok2).symm
      · rw [if_neg hey] at hok2
        exact Or.inr ⟨y, (Except.ok.inj hok2).symm⟩

/-- Every entry of the scanned year dictionary has a nonempty file list drawn
from the scanned files. -/
lemma scanFold_entries (exv : List String) (exy : List Int) (fs : List String)
    (d fd : List (Int × List String)) (Q : String → Prop)
    (hd : ∀ p ∈ d, p.2 ≠ [] ∧ ∀ f ∈ p.2, Q f) (hfs : ∀ f ∈ fs, Q f)
    (hok : fs.foldlM (scanStep exv exy) d = .ok fd) :
    ∀ p ∈ fd, p.2 ≠ [] ∧ ∀ f ∈ p.2, Q f := by
  induction fs generalizing d with
  | nil =>
    cases hok
    exact hd
  | cons g gs ih =>
    rw [List.foldlM_cons] at hok
    cases hstep : scanStep exv exy d g with
    | error e =>
      rw [hstep] at hok
      exact absurd hok (by intro hh; exact Except.noConfusion hh)
    | ok d2 =>
      rw [hstep] at hok
      refine ih d2 ?_ (fun f hf => hfs f (List.mem_cons_of_mem g hf)) hok
      rcases scanStep_cases exv exy d d2 g hstep with rfl | ⟨y, rfl⟩
      · exact hd
      · intro p hp
        unfold dictAdd at hp
        by_cases hc : d.any (fun q => q.1 = y)
        · rw [if_pos hc] at hp
          obtain ⟨q, hq, rfl⟩ := List.mem_map.mp hp
          by_cases hqy : q.1 = y
          · simp only [hqy, if_true]
            refine ⟨by simp, ?_⟩
            intro f hf
            rcases List.mem_append.mp hf with hf | hf
            · exact (hd q hq).2 f hf
            · rcases List.mem_singleton.mp hf with rfl
              exact hfs f (List.mem_cons_self f gs)
          · simp only [hqy, if_false]
            exact hd q hq
        · rw [if_neg hc] at hp
          rcases List.mem_append.mp hp with hp | hp
          · exact hd p hp
          · rcases List.mem_singleton.mp hp with rfl
            refine ⟨by simp, ?_⟩
            intro f hf
            rcases List.mem_singleton.mp hf with rfl
            exact hfs f (List.mem_cons_self f gs)

lemma mem_insertPair (p q : Int × List String) (l : List (Int × List String)) :
    q ∈ insertPair p l ↔ q = p ∨ q ∈ l := by
  induction l with
  | nil => simp [insertPair]
  | cons u us ih =>
    unfold insertPair
    by_cases hc : p.1 ≤ u.1
    · rw [if_pos hc]
      simp only [List.mem_cons]
    · rw [if_neg hc]
      simp only [List.mem_cons, ih]
      tauto

lemma mem_sortPairs (q : Int × List String) (l : List (Int × List String)) :
    q ∈ sortPairs l ↔ q ∈ l := by
  induction l with
  | nil => simp [sortPairs]
  | cons u us ih =>
    show q ∈ insertPair u (sortPairs us) ↔ _
    rw [mem_insertPair, ih, List.mem_cons]

lemma length_insertPair (p : Int × List String) (l : List (Int × List String)) :
    (insertPair p l).length = l.length + 1 := by
  induction l with
  | nil => rfl
  | cons u us ih =>
    unfold insertPair
    by_cases hc : p.1 ≤ u.1
    · rw [if_pos hc]
      rfl
    · rw [if_neg hc]
      simp [ih]

lemma length_sortPairs (l : List (Int × List String)) :
    (sortPairs l).length = l.length := by
  induction l with
  | nil => rfl
  | cons u us ih =>
    show (insertPair u (sortPairs us)).length = _
    rw [length_insertPair, ih]
    rfl

/-- Row count of a possibly-absent DataFrame accumulator. -/
def optRows (o : Option PDF) : Nat :=
  match o with
  | none => 0
  | some df => df.rows.length

lemma fileFold_spec (rr : String → List Val) (L : Nat) (fs : List String)
    (st : List (String × List Val) × Nat)
    (hfs : ∀ f ∈ fs, (rr f).length = L) (hst : ∀ p ∈ st.1, p.2.length = L) :
    (∀ p ∈ (fs.foldl (fileStep rr) st).1, p.2.length = L)
  ∧ (fs ≠ [] → (fs.foldl (fileStep rr) st).2 = L
      ∧ (fs.foldl (fileStep rr) st).1 ≠ []) := by
  induction fs generalizing st with
  | nil => exact ⟨hst, fun h => absurd rfl h⟩
  | cons f fs ih =>
    have hf := fileStep_spec rr L st f (hfs f (List.mem_cons_self f fs)) hst
    have hrec := ih (fileStep rr st f)
      (fun g hg => hfs g (List.mem_cons_of_mem f hg)) hf.1
    rw [List.foldl_cons]
    refine ⟨hrec.1, fun _ => ?_⟩
    cases fs with
    | nil => exact ⟨hf.2.1, hf.2.2⟩
    | cons g gs => exact hrec.2 (by simp)

lemma yearFold_spec (rr : String → List Val) (myc : Bool) (L : Nat)
    (ys : List (Int × List String))
    (hys : ∀ p ∈ ys, p.2 ≠ [] ∧ ∀ f ∈ p.2, (rr f).length = L)
    (st : List (String × List Val) × Option PDF × Nat)
    (hst : ∀ q ∈ st.1, q.2.length = L)
    (hwf : ∀ df, st.2.1 = some df → df.wf) :
    ∃ rd2 dfo ll, ys.foldlM (yearStep rr myc) st = .ok (rd2, dfo, ll)
      ∧ optRows dfo = optRows st.2.1 + ys.length * L
      ∧ (∀ df, dfo = some df → df.wf)
      ∧ (ys ≠ [] → dfo.isSome = true)
      ∧ (st.2.1.isSome = true → dfo.isSome = true) := by
  induction ys generalizing st with
  | nil =>
    refine ⟨st.1, st.2.1, st.2.2, rfl, by simp, hwf, fun h => absurd rfl h,
      fun h => h⟩
  | cons y ys ih =>
    obtain ⟨hfne, hfl⟩ := hys y (List.mem_cons_self y ys)
    obtain ⟨hffL, hffo⟩ := fileFold_spec rr L y.2 (st.1, st.2.2) hfl hst
    obtain ⟨hll, hfne2⟩ := hffo hfne
    have hrd2 : ∀ q ∈ yearDict rr myc st y, q.2.length = L := by
      unfold yearDict
      cases myc with
      | false => simpa using hffL
      | true =>
        simp only [if_true]
        by_cases hc : (y.2.foldl (fileStep rr) (st.1, st.2.2)).1.any
            (fun q => q.1 = "YEAR")
        · rw [if_pos hc]
          intro q hq
          obtain ⟨q0, hq0, rfl⟩ := List.mem_map.mp hq
          by_cases hqy : q0.1 = "YEAR"
          · simp only [hqy, if_true]
            simp [hll]
          · simp only [hqy, if_false]
            exact hffL q0 hq0
        · rw [if_neg hc]
          intro q hq
          rcases List.mem_append.mp hq with hq | hq
          · exact hffL q hq
          · rcases List.mem_singleton.mp hq with rfl
            simp [hll]
    have hrd2ne : yearDict rr myc st y ≠ [] := by
      unfold yearDict
      cases myc with
      | false => simpa using hfne2
      | true =>
        simp only [if_true]
        by_cases hc : (y.2.foldl (fileStep rr) (st.1, st.2.2)).1.any
            (fun q => q.1 = "YEAR")
        · rw [if_pos hc]
          simpa using hfne2
        · rw [if_neg hc]
          simp
    obtain ⟨pdf, hpdf, hpdfL, hpdfwf⟩ := mkPDF_ok (yearDict rr myc st y) L
      hrd2ne hrd2
    rw [List.foldlM_cons]
    have hstep : yearStep rr myc st y = .ok (yearDict rr myc st y,
        some (match st.2.1 with | none => pdf | some d => d.append pdf),
        (y.2.foldl (fileStep rr) (st.1, st.2.2)).2) := by
      unfold yearStep
      rw [hpdf]
      rfl
    rw [hstep]
    have hnewwf : ∀ df2, (some (match st.2.1 with
        | none => pdf | some d => d.append pdf) : Option PDF) = some df2 →
        df2.wf := by
      intro df2 hdf2
      rw [← Option.some.inj hdf2]
      cases hs : st.2.1 with
      | none => exact hpdfwf
      | some d => exact append_wf d pdf (hwf d hs) hpdfwf
    obtain ⟨rd3, dfo, ll, hokrec, hrows, hwf2, hsome1, hsome2⟩ := ih
      (fun p hp => hys p (List.mem_cons_of_mem y hp))
      (yearDict rr myc st y,
        some (match st.2.1 with | none => pdf | some d => d.append pdf),
        (y.2.foldl (fileStep rr) (st.1, st.2.2)).2)
      hrd2 hnewwf
    refine ⟨rd3, dfo, ll, hokrec, ?_, hwf2, fun _ => hsome2 rfl, fun _ => hsome2 rfl⟩
    rw [hrows]
    have hor : optRows (some (match st.2.1 with
        | none => pdf | some d => d.append pdf)) = optRows st.2.1 + L := by
      cases hs : st.2.1 with
      | none => simp [optRows, hpdfL]
      | some d => simp [optRows, append_rows_length, hpdfL]
    show optRows (some (match st.2.1 with
        | none => pdf | some d => d.append pdf)) + ys.length * L
      = optRows st.2.1 + (y :: ys).length * L
    rw [hor, List.length_cons]
    ring

lemma ok_bind {α β : Type} (a : α) (k : α → Except String β) :
    (Except.ok a >>= k) = k a := rfl

lemma len_flatten_replicate (n : Nat) (l : List Val) :
    (List.flatten (List.replicate n l)).length = n * l.length := by
  induction n with
  | zero => simp
  | succ m ih => simp [List.replicate_succ, ih, Nat.succ_mul, Nat.add_comm]

/-- A successful `createPreNa` run produces exactly (number of years) x (grid
cell count) rows, all well-formed, given that every scanned grid flattens to `L`
cells and the region label vector has `L` cells. -/
lemma createPreNa_spec (files : List String) (rr : String → List Val)
    (gwArr : List Val) (exy : List Int) (exv : List String) (myc : Bool)
    (L : Nat) (fdict : List (Int × List String)) (df1 : PDF)
    (hscan : scanFiles files exv exy = .ok fdict)
    (hL : ∀ p ∈ fdict, ∀ f ∈ p.2, (rr f).length = L)
    (hgw : gwArr.length = L)
    (hok : createPreNa files rr gwArr exy exv myc = .ok df1) :
    df1.rows.length = fdict.length * L ∧ df1.wf := by
  have hent : ∀ p ∈ fdict, p.2 ≠ [] ∧ ∀ f ∈ p.2, True :=
    scanFold_entries exv exy files [] fdict (fun _ => True)
      (fun p hp => absurd hp (List.not_mem_nil p)) (fun f _ => trivial) hscan
  have hys : ∀ p ∈ sortPairs fdict, p.2 ≠ [] ∧ ∀ f ∈ p.2, (rr f).length = L := by
    intro p hp
    have hpf : p ∈ fdict := (mem_sortPairs p fdict).mp hp
    exact ⟨(hent p hpf).1, hL p hpf⟩
  unfold createPreNa at hok
  rw [hscan, ok_bind] at hok
  by_cases hemp : fdict.isEmpty = true
  · rw [if_pos hemp] at hok
    exact absurd hok (by intro hh; exact Except.noConfusion hh)
  · rw [if_neg hemp] at hok
    have hfne : fdict ≠ [] := by
      intro hh
      rw [hh] at hemp
      exact hemp rfl
    obtain ⟨rd2, dfo, ll, hfold, hrows, hwfs, hsome, _⟩ := yearFold_spec rr myc L
      (sortPairs fdict) hys ([], none, 0)
      (fun q hq => absurd hq (List.not_mem_nil q))
      (fun df hdf => Option.noConfusion hdf)
    rw [hfold, ok_bind] at hok
    have hsne : sortPairs fdict ≠ [] := by
      intro hh
      have := length_sortPairs fdict
      rw [hh] at this
      exact hfne (List.length_eq_zero.mp this.symm)
    obtain ⟨df0, hdf0⟩ := Option.isSome_iff_exists.mp (hsome hsne)
    have hok2 : (match dfo with
        | none => Except.error "IndexError"
        | some df0 => df0.setCol "GW_NAME"
            (List.flatten (List.replicate fdict.length gwArr))) = .ok df1 := hok
    rw [hdf0] at hok2
    have hok3 : df0.setCol "GW_NAME"
        (List.flatten (List.replicate fdict.length gwArr)) = .ok df1 := hok2
    have hrows0 : df0.rows.length = fdict.length * L := by
      have h1 : optRows dfo = (sortPairs fdict).length * L := by
        rw [hrows]
        simp [optRows]
      rw [hdf0] at h1
      simpa [optRows, length_sortPairs] using h1
    have hlenv : (List.flatten (List.replicate fdict.length gwArr)).length
        = df0.rows.length := by
      rw [len_flatten_replicate, hgw, hrows0]
    obtain ⟨df2, hsc, hlen2, hwfp⟩ := setCol_spec df0 "GW_NAME"
      (List.flatten (List.replicate fdict.length gwArr)) hlenv
    rw [hok3] at hsc
    obtain rfl := (Except.ok.inj hsc)
    exact ⟨hlen2.trans hrows0, hwfp (hwfs df0 hdf0)⟩

lemma findIdx_some_of_mem (c : String) (l : List String) (h : c ∈ l) :
    ∃ j, l.findIdx? (fun x => x = c) = some j ∧ j < l.length := by
  cases hfi : l.findIdx? (fun x => x = c) with
  | none =>
    have := List.findIdx?_eq_none_iff.mp hfi c h
    simp at this
  | some j =>
    obtain ⟨hlt, _, _⟩ := List.findIdx?_eq_some_iff_getElem.mp hfi
    exact ⟨j, rfl, hlt⟩

lemma dropna_cols (df : PDF) : (PDF.dropna df).cols = df.cols := rfl

lemma reindex_rows_shape (df : PDF) (cn : List String) (ord : Bool) :
    (reindex_df df cn ord).rows = df.rows.map (fun r =>
      (reindex_df df cn ord).cols.map (fun c =>
        match df.cols.findIdx? (fun x => x = c) with
        | some i => r.getD i Val.na
        | none => Val.na)) := rfl

lemma reindex_cols_mem (df : PDF) (column_names : List String) (ordering : Bool)
    (hcn : ∀ c ∈ column_names, c ∈ df.cols) :
    ∀ c ∈ (reindex_df df column_names ordering).cols, c ∈ df.cols := by
  intro c hc
  simp only [reindex_df] at hc
  by_cases hemp : column_names.isEmpty = true
  · simp only [hemp, if_true] at hc
    exact (mem_sortStrs c df.cols).mp hc
  · simp only [hemp, Bool.false_eq_true, if_false] at hc
    by_cases hord : ordering = true
    · rw [if_pos hord] at hc
      exact hcn c ((mem_sortStrs c column_names).mp hc)
    · rw [if_neg hord] at hc
      exact hcn c hc

lemma reindex_rows_length (df : PDF) (cn : List String) (ord : Bool) :
    (reindex_df df cn ord).rows.length = df.rows.length := by
  rw [reindex_rows_shape, List.length_map]

/-- Claim C6: when every scanned grid flattens to `L` cells (in particular when
each discovered year has a file for every variable and all grids share one
shape) and the region vector has `L` cells, the assembled table has exactly
(number of years) x `L` rows before missing-value removal; with removal the row
count is at most that bound and every retained row has no missing value in any
retained column (hypothesis `hcn` pins down "retained columns": every explicitly
requested column occurs in the assembled table). -/
theorem assembler_row_count_invariant (files : List String)
    (rr : String → List Val) (gwArr : List Val) (column_names : List String)
    (exy : List Int) (exv : List String) (myc ordering : Bool)
    (L : Nat) (fdict : List (Int × List String)) (df1 : PDF)
    (hscan : scanFiles files exv exy = .ok fdict)
    (hL : ∀ p ∈ fdict, ∀ f ∈ p.2, (rr f).length = L)
    (hgw : gwArr.length = L)
    (hpre : createPreNa files rr gwArr exy exv myc = .ok df1)
    (hcn : ∀ c ∈ column_names, c ∈ df1.cols) :
    create_dataframe files rr gwArr column_names exy exv myc ordering false
      = .ok (reindex_df df1 column_names ordering)
  ∧ (reindex_df df1 column_names ordering).rows.length = fdict.length * L
  ∧ create_dataframe files rr gwArr column_names exy exv myc ordering true
      = .ok (reindex_df df1.dropna column_names ordering)
  ∧ (reindex_df df1.dropna column_names ordering).rows.length ≤ fdict.length * L
  ∧ ∀ r ∈ (reindex_df df1.dropna column_names ordering).rows, Val.na ∉ r := by
  obtain ⟨hrows1, hwf1⟩ := createPreNa_spec files rr gwArr exy exv myc L fdict
    df1 hscan hL hgw hpre
  refine ⟨?_, ?_, ?_, ?_, ?_⟩
  · unfold create_dataframe
    rw [hpre, ok_bind]
    rfl
  · rw [reindex_rows_length, hrows1]
  · unfold create_dataframe
    rw [hpre, ok_bind]
    rfl
  · rw [reindex_rows_length]
    calc (PDF.dropna df1).rows.length ≤ df1.rows.length := by
          unfold PDF.dropna
          simpa using List.length_filter_le _ df1.rows
      _ = fdict.length * L := hrows1
  · intro r hr
    rw [reindex_rows_shape] at hr
    obtain ⟨r0, hr0, rfl⟩ := List.mem_map.mp hr
    have hr0f := List.mem_filter.mp hr0
    have hr0na : Val.na ∉ r0 := by simpa using hr0f.2
    have hr0len : r0.length = df1.cols.length := hwf1 r0 hr0f.1
    intro hna
    obtain ⟨c, hc, hceq⟩ := List.mem_map.mp hna
    have hcin : c ∈ df1.cols := by
      have := reindex_cols_mem df1.dropna column_names ordering
        (fun c2 hc2 => by rw [dropna_cols]; exact hcn c2 hc2) c hc
      rw [dropna_cols] at this
      exact this
    obtain ⟨j, hj, hjlt⟩ := findIdx_some_of_mem c df1.cols hcin
    rw [show (PDF.dropna df1).cols = df1.cols from rfl, hj] at hceq
    have hceq2 : r0.getD j Val.na = Val.na := hceq
    rw [hr0len.symm] at hjlt
    rw [List.getD_eq_getElem r0 Val.na hjlt] at hceq2
    exact hr0na (hceq2 ▸ List.getElem_mem hjlt)

/-- The table `createPreNa` assembles in the witness scenario (before reindex). -/
def preScenarioDF : PDF :=
  ⟨["ET", "P", "YEAR", "GW_NAME"],
   [[Val.num 1, Val.num 5, Val.num 2015, Val.str "A"],
    [Val.num 2, Val.num 6, Val.num 2015, Val.str "A"],
    [Val.num 3, Val.num 7, Val.num 2015, Val.str "A"],
    [Val.num 4, Val.num 8, Val.num 2015, Val.str "A"],
    [Val.num 9, Val.num 13, Val.num 2016, Val.str "A"],
    [Val.num 10, Val.num 14, Val.num 2016, Val.str "A"],
    [Val.num 11, Val.num 15, Val.num 2016, Val.str "A"],
    [Val.num 12, Val.num 16, Val.num 2016, Val.str "A"]]⟩

/-- Witness for C6 at the two-year, four-cell scenario; all hypotheses are
discharged concretely. -/
theorem assembler_row_count_invariant_witness :
    create_dataframe ["d/ET_2015.tif", "d/P_2015.tif", "d/ET_2016.tif",
        "d/P_2016.tif"] rrScenario (List.replicate 4 (Val.str "A")) [] [] []
        true false false
      = .ok (reindex_df preScenarioDF [] false)
  ∧ (reindex_df preScenarioDF [] false).rows.length
      = ([(2015, ["d/ET_2015.tif", "d/P_2015.tif"]),
          (2016, ["d/ET_2016.tif", "d/P_2016.tif"])] :
          List (Int × List String)).length * 4
  ∧ create_dataframe ["d/ET_2015.tif", "d/P_2015.tif", "d/ET_2016.tif",
        "d/P_2016.tif"] rrScenario (List.replicate 4 (Val.str "A")) [] [] []
        true false true
      = .ok (reindex_df preScenarioDF.dropna [] false)
  ∧ (reindex_df preScenarioDF.dropna [] false).rows.length
      ≤ ([(2015, ["d/ET_2015.tif", "d/P_2015.tif"]),
          (2016, ["d/ET_2016.tif", "d/P_2016.tif"])] :
          List (Int × List String)).length * 4
  ∧ ∀ r ∈ (reindex_df preScenarioDF.dropna [] false).rows, Val.na ∉ r :=
  assembler_row_count_invariant
    ["d/ET_2015.tif", "d/P_2015.tif", "d/ET_2016.tif", "d/P_2016.tif"]
    rrScenario (List.replicate 4 (Val.str "A")) [] [] [] true false 4
    [(2015, ["d/ET_2015.tif", "d/P_2015.tif"]),
     (2016, ["d/ET_2016.tif", "d/P_2016.tif"])] preScenarioDF
    rfl (by decide) rfl rfl (by simp)

set_option maxHeartbeats 2000000 in
/-- Claim C10: when a variable (here `P`) has a raster file for 2015 but none
for 2016 while `ET` has both, `create_dataframe` does not treat `P` as missing
in 2016: `raster_dict` is created once and never cleared between years, so the
2016 rows reuse the `P` values read from 2015.  Proved for arbitrary cell
values: the 2016 rows carry exactly the 2015 `P` cells `b1, b2`. -/
theorem stale_variable_reuse (a1 a2 b1 b2 c1 c2 g1 g2 : Val) :
    create_dataframe ["d/ET_2015.tif", "d/P_2015.tif", "d/ET_2016.tif"]
      (fun f => if f = "d/ET_2015.tif" then [a1, a2]
        else if f = "d/P_2015.tif" then [b1, b2] else [c1, c2])
      [g1, g2] ["P", "YEAR"] [] [] true false false
    = .ok ⟨["P", "YEAR"],
        [[b1, Val.num 2015], [b2, Val.num 2015],
         [b1, Val.num 2016], [b2, Val.num 2016]]⟩ := rfl

/-- The flat prediction grid `create_pred_raster` writes when `only_pred` is
false (lines 404-455): per-variable NaN masks are taken before any substitution
(line 416), NaN cells are then zeroed (line 418) so the later `dropna` is a
no-op, the model predicts one value per cell, and each variable's mask positions
are overwritten with the reference file's no-data value (lines 432-434 in the
no-errors branch, 443-446 in the errors branch — identical for the written
grid).  `model` abstracts `rf_model.predict` on the (column-dropped, reindexed)
feature row of a cell; a raster is a flat `List (Option ℚ)` with `none` for NaN;
`L` is the flattened grid length `raster_shape[0] * raster_shape[1]`. -/
def create_pred_raster_grid (L : Nat) (rasters : List (List (Option ℚ)))
    (model : List ℚ → ℚ) (nodata : ℚ) : List ℚ :=
  rasters.foldl (fun pr g =>
      List.zipWith (fun p cell => if cell = none then nodata else p) pr g)
    ((List.range L).map (fun pos =>
      model (rasters.map (fun g => (g.getD pos none).getD 0))))

/-- Effect of the mask-overwrite loop on one position: the result carries the
no-data value exactly where some variable was NaN or the prediction already
equalled the no-data value. -/
lemma overwrite_fold_spec (nodata : ℚ) (rasters : List (List (Option ℚ)))
    (L : Nat) (hr : ∀ g ∈ rasters, g.length = L) (pred : List ℚ)
    (hp : pred.length = L) :
    (rasters.foldl (fun pr g =>
        List.zipWith (fun p cell => if cell = none then nodata else p) pr g)
        pred).length = L
  ∧ ∀ pos, pos < L →
      ((rasters.foldl (fun pr g =>
          List.zipWith (fun p cell => if cell = none then nodata else p) pr g)
          pred).getD pos 0 = nodata
        ↔ (∃ g ∈ rasters, g.getD pos none = none) ∨ pred.getD pos 0 = nodata) := by
  induction rasters generalizing pred with
  | nil => exact ⟨hp, fun pos _ => by simp⟩
  | cons g gs ih =>
    have hg : g.length = L := hr g (List.mem_cons_self g gs)
    have hzlen : (List.zipWith (fun p cell => if cell = none then nodata else p)
        pred g).length = L := by
      rw [List.length_zipWith, hp, hg]
      exact Nat.min_self L
    obtain ⟨hlen, hiff⟩ := ih (fun g2 hg2 => hr g2 (List.mem_cons_of_mem g hg2))
      (List.zipWith (fun p cell => if cell = none then nodata else p) pred g)
      hzlen
    refine ⟨by simpa using hlen, ?_⟩
    intro pos hpos
    rw [List.foldl_cons]
    rw [hiff pos hpos]
    have hpp : pos < pred.length := by rw [hp]; exact hpos
    have hgg : pos < g.length := by rw [hg]; exact hpos
    have hzz : pos < (List.zipWith (fun p cell => if cell = none then nodata else p)
        pred g).length := by rw [hzlen]; exact hpos
    have hzip : (List.zipWith (fun p cell => if cell = none then nodata else p)
        pred g).getD pos 0
        = if g[pos] = none then nodata else pred.getD pos 0 := by
      rw [List.getD_eq_getElem _ _ hzz, List.getElem_zipWith,
        List.getD_eq_getElem _ _ hpp]
    rw [hzip]
    have hgd : g.getD pos none = g[pos] := List.getD_eq_getElem g none hgg
    by_cases hgn : g[pos] = none
    · simp only [hgn, if_pos]
      constructor
      · intro _
        exact Or.inl ⟨g, List.mem_cons_self g gs, by rw [hgd, hgn]⟩
      · intro _
        exact Or.inr trivial
    · simp only [hgn, if_neg, not_false_iff]
      constructor
      · intro h1
        rcases h1 with ⟨g2, hg2, hn2⟩ | h1
        · exact Or.inl ⟨g2, List.mem_cons_of_mem g hg2, hn2⟩
        · exact Or.inr h1
      · intro h1
        rcases h1 with ⟨g2, hg2, hn2⟩ | h1
        · rcases List.mem_cons.mp hg2 with rfl | hg3
          · rw [hgd] at hn2
            exact absurd hn2 hgn
          · exact Or.inl ⟨g2, hg3, hn2⟩
        · exact Or.inr h1

/-- Claim C3 (amended): with `only_pred` false, if every input raster flattens
to `L` cells and the model never predicts the no-data value, the written grid
carries the no-data sentinel at exactly the union P of the per-variable NaN
positions and nowhere else.  (Without the model proviso the sentinel can also
appear outside P — see the counterexample.) -/
theorem pred_raster_nodata_roundtrip (L : Nat)
    (rasters : List (List (Option ℚ))) (model : List ℚ → ℚ) (nodata : ℚ)
    (hr : ∀ g ∈ rasters, g.length = L)
    (hm : ∀ row, model row ≠ nodata) :
    (create_pred_raster_grid L rasters model nodata).length = L
  ∧ ∀ pos, pos < L →
      ((create_pred_raster_grid L rasters model nodata).getD pos 0 = nodata
        ↔ ∃ g ∈ rasters, g.getD pos none = none) := by
  obtain ⟨hlen, hiff⟩ := overwrite_fold_spec nodata rasters L hr
    ((List.range L).map (fun pos =>
      model (rasters.map (fun g => (g.getD pos none).getD 0)))) (by simp)
  refine ⟨hlen, ?_⟩
  intro pos hpos
  unfold create_pred_raster_grid
  rw [hiff pos hpos]
  have h1 : pos < ((List.range L).map (fun p =>
      model (rasters.map (fun g => (g.getD p none).getD 0)))).length := by
    simpa using hpos
  have h2 : ((List.range L).map (fun p =>
      model (rasters.map (fun g => (g.getD p none).getD 0)))).getD pos 0
      = model (rasters.map (fun g => (g.getD pos none).getD 0)) := by
    rw [List.getD_eq_getElem _ _ h1, List.getElem_map, List.getElem_range]
  rw [h2]
  constructor
  · intro h3
    rcases h3 with h3 | h3
    · exact h3
    · exact absurd h3 (hm (rasters.map (fun g => (g.getD pos none).getD 0)))
  · exact Or.inl

/-- Counterexample to C3 as stated: with a (black-box) model whose prediction
equals the no-data value, the written grid carries the sentinel at position 0
even though position 0 is not a no-data position of any input, so "at exactly P
and at no other position" fails without a proviso on the model. -/
theorem pred_raster_nodata_counterexample :
    create_pred_raster_grid 2 [[some 1, none]] (fun _ => -32767) (-32767)
      = [-32767, -32767]
  ∧ ¬ (∀ pos, pos < 2 →
      ((create_pred_raster_grid 2 [[some 1, none]]
          (fun _ => -32767) (-32767)).getD pos 0 = -32767
        ↔ ∃ g ∈ [[(some 1 : Option ℚ), none]], g.getD pos none = none)) := by
  refine ⟨rfl, ?_⟩
  intro h
  obtain ⟨g, hg, hn⟩ := (h 0 (by norm_num)).mp rfl
  rcases List.mem_singleton.mp hg with rfl
  exact Option.noConfusion hn

/-- Witness for the amended C3: one raster with NaN exactly at position 1 and a
model predicting the constant 5 (never the sentinel). -/
theorem pred_raster_nodata_roundtrip_witness :
    (∀ g ∈ [[(some 1 : Option ℚ), none]], g.length = 2)
  ∧ ((create_pred_raster_grid 2 [[some 1, none]]
        (fun _ => (5 : ℚ)) (-32767)).length = 2
    ∧ ∀ pos, pos < 2 →
      ((create_pred_raster_grid 2 [[some 1, none]]
          (fun _ => (5 : ℚ)) (-32767)).getD pos 0 = -32767
        ↔ ∃ g ∈ [[(some 1 : Option ℚ), none]], g.getD pos none = none)) :=
  ⟨by decide,
   pred_raster_nodata_roundtrip 2 [[some 1, none]] (fun _ => (5 : ℚ)) (-32767)
     (by decide) (fun row => by norm_num)⟩

/-- `ceil(test_size * n)` computed on the rational's reduced numerator and
denominator (valid for the nonnegative test sizes sklearn accepts). -/
def ceilMulNat (q : ℚ) (n : Nat) : Nat :=
  (q.num.toNat * n + (q.den - 1)) / q.den

/-- `train_test_split` sample-count validation for a float `test_size`:
`n_test = ceil(test_size * n)` and `n_train = n - n_test`; sklearn raises
`ValueError` when either side ends up empty. -/
def ttsSizes (n : Nat) (test_size : ℚ) : Except String Nat :=
  let nt := ceilMulNat test_size n
  if nt = 0 ∨ n ≤ nt then .error "ValueError" else .ok nt

/-- One selection value of the loop of `split_data_train_test_ratio`
(lines 140-149): split that value's rows (with `shuffle` the permuted front is
the test side; without it the tail is), always accumulate the train rows
(line 145) and the train targets (line 149, a `pd.concat` that makes the
accumulator non-pristine), and accumulate the test rows/targets only when
`(flag and test_var == svar) or not flag` (line 146).  `train_test_split`
splits the features and the target with the same indices, so the y chunks are
the pred-attr columns of the x chunks. -/
def ratioStep (R : Type) (rows : List R) (attrOf predOf : R → Val)
    (shuffle_ : Bool) (seed : Nat) (test_size : ℚ) (flag : Bool)
    (test_var : Option Val)
    (st : List R × List R × Option (List Val) × Option (List Val)) (v : Val) :
    Except String (List R × List R × Option (List Val) × Option (List Val)) := do
  let sel := rows.filter (fun r => attrOf r = v)
  let nt ← ttsSizes sel.length test_size
  let x_test := if shuffle_ then (shuffleL seed sel).take nt
    else sel.drop (sel.length - nt)
  let x_train := if shuffle_ then (shuffleL seed sel).drop nt
    else sel.take (sel.length - nt)
  let cond := (flag && (test_var == some v)) || !flag
  pure (st.1 ++ x_train,
    (if cond then st.2.1 ++ x_test else st.2.1),
    some (unO st.2.2.1 ++ x_train.map predOf),
    (if cond then dfAppend st.2.2.2 (x_test.map predOf) else st.2.2.2))

/-- `split_data_train_test_ratio` (lines 108-157).  The loop accumulates the
four tables, then the return statement evaluates `y_train_df[0]` and
`y_test_df[0]` (line 157).  `pd.concat` of the initial empty DataFrame with a
Series named `pred_attr` yields a DataFrame whose single column is named
`pred_attr` (the Series name), not the integer 0, so the lookup `[0]` raises
`KeyError`; on a still-pristine accumulator (no concat ever ran) it raises
`KeyError` as well.  Either way the function never returns normally. -/
def split_data_train_test_ratio (R : Type) (rows : List R)
    (yearOf gwOf predOf : R → Val) (shuffle_ : Bool) (seed : Nat)
    (test_size : ℚ) (test_year test_gw : Option Val) (use_gw : Bool) :
    Except String (List R × List R × List Val × List Val) := do
  let years := (rows.map yearOf).dedup
  let gws := (rows.map gwOf).dedup
  let flag := (match test_year with
      | some v => years.contains v
      | none => false)
    || (use_gw && (match test_gw with
      | some v => gws.contains v
      | none => false))
  let attrOf := if use_gw then gwOf else yearOf
  let selection := if use_gw then gws else years
  let test_var := if use_gw then test_gw else test_year
  let _st ← selection.foldlM
    (ratioStep R rows attrOf predOf shuffle_ seed test_size flag test_var)
    ([], [], none, none)
  .error "KeyError"

/-- Claim C4 (code bug): `split_data_train_test_ratio` never returns the
described tables.  Two concrete runs: (i) five rows of year 2015 with the
default targets (`test_year=None`, `test_gw=None`, `use_gw=False`,
`shuffle=False`, `test_size=0.2`) — the per-value split succeeds (n=5,
n_test=1, n_train=4) and the return statement raises `KeyError` because the
concatenated target frame's column is named `pred_attr`, not 0; (ii) the
mixed case `use_gw=True`, `test_gw="B"` absent, `test_year=2015` present —
`flag` is set by `test_year` alone, no region ever matches `test_var`, so the
test accumulators stay empty as well (against the claim's "every partition
value contributes") and the call raises `KeyError` too. -/
theorem ratio_split_keyerror_eval :
    split_data_train_test_ratio Nat [0, 1, 2, 3, 4]
      (fun _ => Val.num 2015) (fun _ => Val.str "A") (fun r => Val.num r)
      false 0 (mkRat 1 5) none none false = .error "KeyError"
  ∧ split_data_train_test_ratio Nat [0, 1, 2, 3, 4]
      (fun _ => Val.num 2015) (fun _ => Val.str "A") (fun r => Val.num r)
      false 0 (mkRat 1 5) (some (Val.num 2015)) (some (Val.str "B")) true
      = .error "KeyError" := by
  constructor <;> rfl
